import Mathlib

/-!
Verification of the GaitScope heatmap core against its specification.

This file gives a shallow embedding of the relevant parts of
`src/heatmap_generation/prerenderer.py`, `Heatmap_Project/heatmap.py` and
`Heatmap_Project/animator.py`, and proves (or refutes) the spec claims
about those parts.  Machine integers are modelled by `ℤ`/`ℕ` (Python ints
are unbounded, Python `//` on `int` agrees with `Int` division for the
operands occurring here, and `max`/`min` are literal), float arithmetic by
`ℝ` (or a generic linear ordered field where the code is polymorphic in the
numeric type), Python `dict` by functions into `Option`, and exceptions by
`Option`.
-/

namespace GaitScope

/-! ### PreRenderer (`src/heatmap_generation/prerenderer.py`)

The index-to-frame dictionary `self.buffer` is modelled as a function
`ℤ → Option F`, where `F` is the (opaque to the cache) type of rendered
frames; `none` models an absent key.  `animator.render_frame_at` is a
parameter `render : ℤ → Option F`, `none` modelling the exception branch
that the worker skips. -/

/-- Frame buffer of `PreRenderer`: the dict `self.buffer` (`idx -> frame`). -/
def Buffer (F : Type) : Type := ℤ → Option F

/-- Embeds `PreRenderer.get`: `self.buffer.get(int(idx), None)`. -/
def bufferGet {F : Type} (buf : Buffer F) (idx : ℤ) : Option F := buf idx

/-- Embeds `half = max(1, self.capacity // 2)` from `PreRenderer._worker`. -/
def windowHalf (capacity : ℤ) : ℤ := max 1 (capacity / 2)

/-- Embeds `start = max(0, target - half // 2)` from `PreRenderer._worker`. -/
def windowStart (target capacity : ℤ) : ℤ := max 0 (target - windowHalf capacity / 2)

/-- Embeds `end = min(n, start + self.capacity)` from `PreRenderer._worker`. -/
def windowEnd (n target capacity : ℤ) : ℤ := min n (windowStart target capacity + capacity)

/-- Embeds `desired = list(range(start, end))` from `PreRenderer._worker`. -/
def desiredIndices (n target capacity : ℤ) : List ℤ :=
  (List.range (windowEnd n target capacity - windowStart target capacity).toNat).map
    (fun k => windowStart target capacity + (k : ℤ))

/-- One iteration of the render-missing loop of `PreRenderer._worker`:
if `i not in self.buffer`, try to render it; insert on success, skip on
exception (`render i = none`). -/
def fillStep {F : Type} (render : ℤ → Option F) (buf : Buffer F) (i : ℤ) : Buffer F :=
  match buf i with
  | some _ => buf
  | none =>
    match render i with
    | some frm => Function.update buf i (some frm)
    | none => buf

/-- The render-missing loop of `PreRenderer._worker` over the desired indices. -/
def fillLoop {F : Type} (render : ℤ → Option F) : Buffer F → List ℤ → Buffer F
  | buf, [] => buf
  | buf, i :: rest => fillLoop render (fillStep render buf i) rest

/-- Embeds the eviction loop of `PreRenderer._worker`: every key `k` with
`k < start or k >= end` is deleted from the buffer. -/
def evictOutside {F : Type} (buf : Buffer F) (s e : ℤ) : Buffer F :=
  fun k => if k < s ∨ e ≤ k then none else buf k

/-- One complete fill pass of the `PreRenderer._worker` body (the branch
taken when `n > 0`): compute the desired window, render the missing
indices, then evict everything outside the window. -/
def fillPass {F : Type} (render : ℤ → Option F) (buf : Buffer F)
    (n target capacity : ℤ) : Buffer F :=
  evictOutside (fillLoop render buf (desiredIndices n target capacity))
    (windowStart target capacity) (windowEnd n target capacity)

/-! #### Concurrency model for stop/join

The worker thread, `request` and `stop` interact through the shared state
`(buffer, running, target)`.  We model the interleavings with a labelled
transition system: the worker is at the loop top, inside one fill pass, or
exited; `stop()` is the two observable actions `running := False` (under
the condition variable) and the `join()` that completes only once the
worker has exited. -/

/-- Program counter of the `PreRenderer._worker` thread.  A pass in flight
remembers the target it read at the loop top. -/
inductive WorkerPC : Type
  | loopTop : WorkerPC
  | midPass : ℤ → WorkerPC
  | exited : WorkerPC
deriving DecidableEq

/-- Shared state of one `PreRenderer` instance together with the worker's
program counter and whether `stop()` has returned to its caller. -/
structure PRState (F : Type) where
  buffer : Buffer F
  running : Bool
  target : Option ℤ
  pc : WorkerPC
  stopReturned : Bool

/-- Interleaved small-step semantics of the worker loop, `request` and
`stop`.  `beginPass` is the loop top reading `running`/`target` under the
lock; `finishPass` is the rest of one pass body mutating the buffer
(`skipPass` is the `n <= 0` branch that mutates nothing); `workerExit` is
the `break` on `not running`; `stopSignal` is `running = False` inside
`stop()`; `stopJoin` is the `join()` returning, which requires the worker
to have exited. -/
inductive PRStep {F : Type} (render : ℤ → Option F) (n capacity : ℤ) :
    PRState F → PRState F → Prop
  | beginPass (s : PRState F) (t : ℤ) (hpc : s.pc = WorkerPC.loopTop)
      (hrun : s.running = true) (htgt : s.target = some t) :
      PRStep render n capacity s { s with pc := WorkerPC.midPass t }
  | finishPass (s : PRState F) (t : ℤ) (hpc : s.pc = WorkerPC.midPass t) (hn : 0 < n) :
      PRStep render n capacity s
        { s with buffer := fillPass render s.buffer n t capacity, pc := WorkerPC.loopTop }
  | skipPass (s : PRState F) (t : ℤ) (hpc : s.pc = WorkerPC.midPass t) (hn : n ≤ 0) :
      PRStep render n capacity s { s with pc := WorkerPC.loopTop }
  | workerExit (s : PRState F) (hpc : s.pc = WorkerPC.loopTop) (hrun : s.running = false) :
      PRStep render n capacity s { s with pc := WorkerPC.exited }
  | request (s : PRState F) (t : ℤ) :
      PRStep render n capacity s { s with target := some t }
  | stopSignal (s : PRState F) :
      PRStep render n capacity s { s with running := false }
  | stopJoin (s : PRState F) (hpc : s.pc = WorkerPC.exited) :
      PRStep render n capacity s { s with stopReturned := true }

/-- State right after `__init__` and `start()`: empty buffer, `running`
true, no target yet, worker at the loop top, `stop()` not yet returned. -/
def PRInit (F : Type) : PRState F :=
  { buffer := fun _ => none, running := true, target := none,
    pc := WorkerPC.loopTop, stopReturned := false }

/-- Concrete state used below: the system after `stop()` has returned. -/
def stopState : PRState ℕ :=
  { buffer := fun _ => none, running := false, target := none,
    pc := WorkerPC.exited, stopReturned := true }

/-! ### heatmap.py (`Heatmap_Project/heatmap.py`)

Float arithmetic is modelled over `ℝ` where `np.exp` occurs, and over a
generic linear ordered field elsewhere (so the same definitions can be
evaluated on `ℚ` in witnesses). -/

/-- Grid cell centers of `precompute_kernels`:
`gx = (np.arange(gW) + 0.5) / gW * wFinal`, `gy` likewise, and the
row-major `meshgrid`/`ravel` stack `grid` of `gH * gW` points. -/
noncomputable def gridPoints (gW gH : ℕ) (wFinal hFinal : ℝ) : List (ℝ × ℝ) :=
  (List.range gH).flatMap (fun (i : ℕ) => (List.range gW).map (fun (j : ℕ) =>
    (((j : ℝ) + 1 / 2) / (gW : ℝ) * wFinal, ((i : ℝ) + 1 / 2) / (gH : ℝ) * hFinal)))

/-- Embeds `precompute_kernels(coords, gW, gH, wFinal, hFinal, radius, smooth)`:
one row per sensor, one column per grid cell, entry
`exp(-smooth * (dist2 / radius2))` with `radius2 = radius * radius`. -/
noncomputable def precompute_kernels (coords : List (ℝ × ℝ)) (gW gH : ℕ)
    (wFinal hFinal radius smooth : ℝ) : List (List ℝ) :=
  coords.map (fun c => (gridPoints gW gH wFinal hFinal).map (fun g =>
    Real.exp (-(smooth * (((g.1 - c.1) * (g.1 - c.1) + (g.2 - c.2) * (g.2 - c.2)) /
      (radius * radius))))))

/-- The pad-with-zeros / truncate alignment used by both `compute_cop` and
`Animator._render_side` when a pressure vector's length disagrees with the
expected sensor count. -/
def padTrim {α : Type} [Zero α] (p : List α) (n : ℕ) : List α :=
  if p.length < n then p ++ List.replicate (n - p.length) 0 else p.take n

/-- Python `int(round(x))`: round half to even. -/
def pyRound {α : Type} [LinearOrderedField α] [FloorRing α] (x : α) : ℤ :=
  if x - (⌊x⌋ : α) < 1 / 2 then ⌊x⌋
  else if 1 / 2 < x - (⌊x⌋ : α) then ⌊x⌋ + 1
  else if ⌊x⌋ % 2 = 0 then ⌊x⌋ else ⌊x⌋ + 1

/-- Embeds `compute_cop(pressures, coords)`: sentinel `(0, 0)` for an empty
layout, alignment by pad/trim, sentinel for non-positive total pressure,
otherwise the rounded pressure-weighted average of the coordinates. -/
def compute_cop {α : Type} [LinearOrderedField α] [FloorRing α]
    (pressures : List α) (coords : List (α × α)) : ℤ × ℤ :=
  if coords.length = 0 then (0, 0)
  else
    let ps := padTrim pressures coords.length
    let s := ps.sum
    if s ≤ 0 then (0, 0)
    else
      (pyRound ((List.zipWith (fun c p => c.1 * p) coords ps).sum / s),
       pyRound ((List.zipWith (fun c p => c.2 * p) coords ps).sum / s))

/-- Stripe width from `create_colorbar`:
`stripe_w = max(preferred, min(preferred + 4, max(4, width - 8)))` with
`preferred = 8`. -/
def colorbarStripeW (width : ℤ) : ℤ := max 8 (min (8 + 4) (max 4 (width - 8)))

/-- Width of the image returned by `create_colorbar(height, width)`:
`out_w = pad_left + stripe_w + label_area_w` with `pad_left = 3`,
`label_area_w = width - stripe_w + pad_right` and `pad_right = 6`. -/
def create_colorbar_width (width : ℤ) : ℤ :=
  3 + colorbarStripeW width + (width - colorbarStripeW width + 6)

/-- Height of the image returned by `create_colorbar(height, width)`:
`out_h = height + top + 4` with `top = 6`. -/
def create_colorbar_height (height : ℤ) : ℤ := height + 6 + 4

/-! ### animator.py (`Heatmap_Project/animator.py`) -/

/-- Pixel dimensions of a produced image (the `numpy` array shape prefix).
Pixel colors come from external `cv2` calls (colormap, resize, drawing) and
are not modelled; claims about images in this development are geometric. -/
structure Image where
  height : ℕ
  width : ℕ
deriving DecidableEq

/-- Embeds `render_heatmap_from_flatZ(Z_flat, wFinal, hFinal, gW, gH)`:
`Z_flat.reshape((gH, gW))` raises unless `len(Z_flat) = gH * gW` (modelled
as `none`); otherwise clipping, colormap and `cv2.resize` to
`(wFinal, hFinal)` produce an `hFinal × wFinal` image. -/
def render_heatmap_from_flatZ {α : Type} (Z : List α) (wFinal hFinal gW gH : ℕ) :
    Option Image :=
  if Z.length = gH * gW then some { height := hFinal, width := wFinal } else none

/-- Column count of a dense matrix stored as a list of rows (`K.shape[1]`). -/
def matCols {α : Type} (K : List (List α)) : ℕ := (K.headD []).length

/-- `p.dot(K)` for a row vector `p` of length `K.shape[0]`: entry `j` is
the sum over `i` of `p_i * K_i_j`. -/
def dotVM {α : Type} [LinearOrderedField α] (p : List α) (K : List (List α)) :
    List α :=
  (List.range (matCols K)).map
    (fun j => (List.zipWith (fun a row => a * row.getD j 0) p K).sum)

/-- Embeds `Animator._render_side(seq, K, coords)` at frame index
`frame_idx`: a blank image and `(0, 0)` COP when the sequence or the kernel
bank is empty; otherwise select `seq[frame_idx % len(seq)]`, pad/trim it to
`K.shape[0]`, interpolate with `p.dot(K)`, render, and compute the COP from
the unpadded frame. -/
def render_side {α : Type} [LinearOrderedField α] [FloorRing α]
    (wFinal hFinal gW gH : ℕ) (seq : List (List α)) (K : List (List α))
    (coords : List (α × α)) (frame_idx : ℕ) : Option (Image × ℤ × ℤ) :=
  if seq.length = 0 ∨ K.length = 0 then
    some ({ height := hFinal, width := wFinal }, (0, 0))
  else
    let frame := seq.getD (frame_idx % seq.length) []
    let p := padTrim frame K.length
    (render_heatmap_from_flatZ (dotVM p K) wFinal hFinal gW gH).map
      (fun img => (img, compute_cop frame coords))

/-- Python `int(q)`: truncation toward zero. -/
def pyInt (q : ℚ) : ℤ := if 0 ≤ q then ⌊q⌋ else -⌊-q⌋

/-- Embeds one trail-drawing loop of `Animator.get_frame`: for
`i, pt in enumerate(reversed(trail))` a circle of radius
`int(min_size + ((n - i) / n) * (max_size - min_size))` (`min_size = 2`,
`max_size = 8`, `n = len(trail)`) is drawn at `(pt[0] + ox, pt[1] + oy)`.
The result lists every (center, radius) pair drawn, in drawing order. -/
def trailCircles (trail : List (ℤ × ℤ)) (ox oy : ℤ) : List ((ℤ × ℤ) × ℤ) :=
  (List.enum trail.reverse).map (fun ip =>
    ((ip.2.1 + ox, ip.2.2 + oy),
      pyInt (2 + (((trail.length : ℚ) - (ip.1 : ℚ)) / (trail.length : ℚ)) * (8 - 2))))

/-- Embeds the standalone current-COP marker of `Animator.get_frame`: a
radius-8 circle drawn only when `cop != (0, 0)`. -/
def copCircle (cop : ℤ × ℤ) (ox oy : ℤ) : Option ((ℤ × ℤ) × ℤ) :=
  if cop ≠ (0, 0) then some ((cop.1 + ox, cop.2 + oy), 8) else none

/-- Width of the composed frame from `Animator.get_frame`:
`final_w = w * 2 + margin * 3 + cb_w` where `cb_w` is the actual width of
the image returned by `create_colorbar(h, legendW)`. -/
def get_frame_width (w margin legendW : ℤ) : ℤ :=
  w * 2 + margin * 3 + create_colorbar_width legendW

/-- Height of the composed frame from `Animator.get_frame`:
`final_h = max(h, cb_h) + margin * 2`. -/
def get_frame_height (h margin legendW : ℤ) : ℤ :=
  max h (create_colorbar_height legendW) + margin * 2

end GaitScope

namespace GaitScope

/-! ### Theorems about the PreRenderer window -/

/-- Helper: over `ℤ`, `max(1, c / 2) / 2 = c / 4` once `1 ≤ c`. -/
lemma windowHalf_div_two (c : ℤ) (hc : 1 ≤ c) : windowHalf c / 2 = c / 4 := by
  unfold windowHalf
  omega

/-- Claim C1: after a completed fill pass with desired window
`[start, end)`, `get i` can return a frame only for `start ≤ i < end`, and
returns `none` for every `i` outside the window, because the pass evicts
every cached index outside the window. -/
theorem fillPass_window_only {F : Type} (render : ℤ → Option F) (buf : Buffer F)
    (n target capacity : ℤ) (hn : 0 < n) :
    ∀ i : ℤ,
      (bufferGet (fillPass render buf n target capacity) i ≠ none →
        windowStart target capacity ≤ i ∧ i < windowEnd n target capacity) ∧
      ((i < windowStart target capacity ∨ windowEnd n target capacity ≤ i) →
        bufferGet (fillPass render buf n target capacity) i = none) := by
  intro i
  unfold bufferGet fillPass evictOutside
  by_cases hcond : i < windowStart target capacity ∨ windowEnd n target capacity ≤ i
  · rw [if_pos hcond]
    exact ⟨fun hne => absurd rfl hne, fun _ => rfl⟩
  · rw [if_neg hcond]
    exact ⟨fun _ => by omega, fun hout => absurd hout hcond⟩

/-- Witness for C1: a concrete pass (frame count 10, target 3, capacity 4
gives window `[2, 6)`) leaves index 0 absent. -/
theorem fillPass_window_only_witness :
    bufferGet (fillPass (fun j => some j) (fun _ => none) 10 3 4) 0 = none :=
  (fillPass_window_only (fun j => some j) (fun _ => none) 10 3 4 (by decide) 0).2
    (by decide)

/-- Counterexample to claim C2 as stated: with frame count 4, target 0 and
capacity 8 the code computes the window `[0, 4)`, not
`[start, start + 8) = [0, 8)` — the end is clamped to the frame count. -/
theorem window_clamped_counterexample :
    windowStart 0 8 = max 0 (0 - 8 / 4) ∧
    windowEnd 4 0 8 = 4 ∧
    windowEnd 4 0 8 ≠ max 0 (0 - 8 / 4) + 8 := by
  refine ⟨by decide, by decide, by decide⟩

/-- Claim C2 (amended): for `T ≥ 0`, `C ≥ 1` the pass computes
`start = max(0, T - C/4)` (the code's `max(1, C//2) // 2` equals `C // 4`),
and the window is `[start, min(n, start + C))` with the end additionally
clamped to the frame count `n`. -/
theorem window_formula (n target capacity : ℤ) (ht : 0 ≤ target) (hc : 1 ≤ capacity) :
    windowStart target capacity = max 0 (target - capacity / 4) ∧
    windowEnd n target capacity = min n (max 0 (target - capacity / 4) + capacity) := by
  have h := windowHalf_div_two capacity hc
  constructor
  · unfold windowStart
    rw [h]
  · unfold windowEnd windowStart
    rw [h]

/-- Witness for C2 (amended) at `n = 4`, `T = 0`, `C = 8`. -/
theorem window_formula_witness :
    windowStart 0 8 = max 0 (0 - 8 / 4) ∧
    windowEnd 4 0 8 = min 4 (max 0 (0 - 8 / 4) + 8) :=
  window_formula 4 0 8 (by decide) (by decide)

/-! ### Theorems about stop/join -/

/-- A step preserves the invariant that once `stop()` has returned, the
worker has exited. -/
lemma prstep_stop_exited {F : Type} {render : ℤ → Option F} {n capacity : ℤ}
    {s s' : PRState F} (h : PRStep render n capacity s s')
    (hinv : s.stopReturned = true → s.pc = WorkerPC.exited) :
    s'.stopReturned = true → s'.pc = WorkerPC.exited := by
  cases h with
  | beginPass t hp hr ht =>
    intro hstop
    have h1 := hinv hstop
    rw [hp] at h1
    simp at h1
  | finishPass t hp hn =>
    intro hstop
    have h1 := hinv hstop
    rw [hp] at h1
    simp at h1
  | skipPass t hp hn =>
    intro hstop
    have h1 := hinv hstop
    rw [hp] at h1
    simp at h1
  | workerExit hp hr => intro _; rfl
  | request t => exact hinv
  | stopSignal => exact hinv
  | stopJoin hp => intro _; exact hp

/-- Once the worker has exited and `stop()` has returned, every further
step leaves the buffer untouched and the worker exited. -/
lemma prstep_frozen {F : Type} {render : ℤ → Option F} {n capacity : ℤ}
    {s s' : PRState F} (h : PRStep render n capacity s s')
    (hpc : s.pc = WorkerPC.exited) (hstop : s.stopReturned = true) :
    s'.buffer = s.buffer ∧ s'.pc = WorkerPC.exited ∧ s'.stopReturned = true := by
  cases h with
  | beginPass t hp hr ht => rw [hpc] at hp; simp at hp
  | finishPass t hp hn => rw [hpc] at hp; simp at hp
  | skipPass t hp hn => rw [hpc] at hp; simp at hp
  | workerExit hp hr => rw [hpc] at hp; simp at hp
  | request t => exact ⟨rfl, hpc, hstop⟩
  | stopSignal => exact ⟨rfl, hpc, hstop⟩
  | stopJoin hp => exact ⟨rfl, hpc, rfl⟩

/-- In every execution from the initial state, `stopReturned` implies the
worker has exited. -/
lemma reach_stop_exited {F : Type} {render : ℤ → Option F} {n capacity : ℤ}
    {s : PRState F}
    (h : Relation.ReflTransGen (PRStep render n capacity) (PRInit F) s) :
    s.stopReturned = true → s.pc = WorkerPC.exited := by
  induction h with
  | refl => intro hstop; cases hstop
  | tail hab hbc ih => exact prstep_stop_exited hbc ih

/-- Claim C3: in every interleaving of the worker loop with `request` and
`stop`, once `stop()` has returned, the index-to-frame buffer is never
mutated again — every later `get` observes exactly the buffer that was
current when `stop()` returned. -/
theorem prerenderer_no_mutation_after_stop {F : Type} (render : ℤ → Option F)
    (n capacity : ℤ) (s s' : PRState F)
    (hreach : Relation.ReflTransGen (PRStep render n capacity) (PRInit F) s)
    (hstop : s.stopReturned = true)
    (hlater : Relation.ReflTransGen (PRStep render n capacity) s s') :
    ∀ i : ℤ, bufferGet s'.buffer i = bufferGet s.buffer i := by
  have hexit : s.pc = WorkerPC.exited := reach_stop_exited hreach hstop
  have key : s'.buffer = s.buffer ∧ s'.pc = WorkerPC.exited ∧
      s'.stopReturned = true := by
    induction hlater with
    | refl => exact ⟨rfl, hexit, hstop⟩
    | tail hab hbc ih =>
      obtain ⟨hb, hp, hs⟩ := ih
      obtain ⟨hb', hp', hs'⟩ := prstep_frozen hbc hp hs
      exact ⟨hb'.trans hb, hp', hs'⟩
  intro i
  rw [key.1]

/-- Witness for C3: from the freshly started cache, run `stop()` to
completion (signal, worker exit, join) reaching `stopState`, then perform a
late `request(5)`: `get 0` observes the same buffer as when `stop()`
returned. -/
theorem prerenderer_no_mutation_after_stop_witness :
    bufferGet ({ stopState with target := some 5 } : PRState ℕ).buffer 0 =
      bufferGet stopState.buffer 0 :=
  prerenderer_no_mutation_after_stop (F := ℕ) (fun _ => none) 1 1 stopState
    { stopState with target := some 5 }
    (Relation.ReflTransGen.head (PRStep.stopSignal (PRInit ℕ))
      (Relation.ReflTransGen.head
        (PRStep.workerExit { PRInit ℕ with running := false } rfl rfl)
        (Relation.ReflTransGen.single
          (PRStep.stopJoin
            { { PRInit ℕ with running := false } with pc := WorkerPC.exited } rfl))))
    rfl
    (Relation.ReflTransGen.single (PRStep.request stopState 5))
    0

/-! ### Theorems about the composite frame geometry -/

/-- Counterexample to claim C4 as stated: with image width 100, margin 10
and legend width 60 the composite is 299 px wide, while
`2 * w + 3 * m + legendW = 290` — the colorbar image is 9 px wider than the
requested legend width. -/
theorem composite_width_counterexample :
    get_frame_width 100 10 60 = 299 ∧ (299 : ℤ) ≠ 2 * 100 + 3 * 10 + 60 := by
  refine ⟨by decide, by decide⟩

/-- Claim C4 (amended): the composite frame width is
`2 * w + 3 * margin + (legendW + 9)`; the colorbar returned by
`create_colorbar` is `legendW + 9` px wide (3 px left pad plus 6 px right
pad around a stripe-plus-labels band of the requested width). -/
theorem composite_width_formula (w margin legendW : ℤ) :
    get_frame_width w margin legendW = 2 * w + 3 * margin + (legendW + 9) := by
  unfold get_frame_width create_colorbar_width
  ring

/-! ### Theorems about trail and COP markers -/

/-- Counterexample to claim C5 as stated: a trail holding only the sentinel
`(0, 0)` still gets a marker drawn (a radius-8 circle at the panel origin
offset); the trail loop does not skip sentinel points. -/
theorem trail_sentinel_drawn_counterexample :
    trailCircles [((0 : ℤ), 0)] 10 20 = [((10, 20), 8)] := by
  simp [trailCircles, pyInt]

/-- Claim C5 (amended): the trail loops draw one marker per trail entry,
sentinel `(0, 0)` entries included; only the standalone current-COP marker
is suppressed, exactly when the COP equals the sentinel `(0, 0)`. -/
theorem trail_draws_all_entries (trail : List (ℤ × ℤ)) (ox oy : ℤ) :
    (trailCircles trail ox oy).length = trail.length ∧
    (∀ cop : ℤ × ℤ, copCircle cop ox oy = none ↔ cop = (0, 0)) := by
  constructor
  · simp [trailCircles]
  · intro cop
    unfold copCircle
    by_cases h : cop = (0, 0)
    · simp [h]
    · simp [h]

/-! ### Theorems about per-side rendering -/

/-- Claim C8: when the selected pressure frame's length differs from the
kernel bank's row count, `_render_side` still succeeds (never raises) and
the produced image has the configured output dimensions, provided every
kernel row has the grid's `gW * gH` columns (as `precompute_kernels`
guarantees). -/
theorem render_side_mismatch_safe {α : Type} [LinearOrderedField α] [FloorRing α]
    (wFinal hFinal gW gH : ℕ) (seq : List (List α)) (K : List (List α))
    (coords : List (α × α)) (frame_idx : ℕ)
    (hK : ∀ row ∈ K, row.length = gW * gH)
    (hmis : (seq.getD (frame_idx % seq.length) []).length ≠ K.length) :
    (render_side wFinal hFinal gW gH seq K coords frame_idx).map Prod.fst =
      some { height := hFinal, width := wFinal } := by
  unfold render_side
  by_cases hguard : seq.length = 0 ∨ K.length = 0
  · rw [if_pos hguard]
    rfl
  · rw [if_neg hguard]
    have hKne : K ≠ [] := by
      intro h
      exact hguard (Or.inr (by simp [h]))
    have hcols : matCols K = gW * gH := by
      unfold matCols
      cases K with
      | nil => exact absurd rfl hKne
      | cons r rs => simpa using hK r (by simp)
    have hlen : (dotVM (padTrim (seq.getD (frame_idx % seq.length) []) K.length) K).length
        = gH * gW := by
      simp [dotVM, hcols, Nat.mul_comm]
    simp only [render_heatmap_from_flatZ, hlen, if_pos]
    rfl

/-- Witness for C8: a two-entry frame against a one-row kernel bank over a
1×1 grid still renders a 4×3 image. -/
theorem render_side_mismatch_safe_witness :
    (render_side (α := ℚ) 3 4 1 1 [[1, 2]] [[0]] [] 0).map Prod.fst =
      some { height := 4, width := 3 } :=
  render_side_mismatch_safe 3 4 1 1 [[1, 2]] [[0]] [] 0 (by decide) (by decide)

/-- Claim C10: for a non-empty (and non-blank) side, `_render_side` neither
blanks nor clamps past the end of a short sequence: rendering at
`frame_idx + len(seq)` equals rendering at `frame_idx`, the result depends
on `frame_idx` only through `frame_idx % len(seq)`, and the rendered frame
is exactly `seq[frame_idx % len(seq)]`. -/
theorem render_side_cyclic {α : Type} [LinearOrderedField α] [FloorRing α]
    (wFinal hFinal gW gH : ℕ) (seq : List (List α)) (K : List (List α))
    (coords : List (α × α)) (frame_idx : ℕ) (hs : seq ≠ []) :
    render_side wFinal hFinal gW gH seq K coords (frame_idx + seq.length) =
      render_side wFinal hFinal gW gH seq K coords frame_idx ∧
    render_side wFinal hFinal gW gH seq K coords frame_idx =
      render_side wFinal hFinal gW gH seq K coords (frame_idx % seq.length) ∧
    (K ≠ [] →
      render_side wFinal hFinal gW gH seq K coords frame_idx =
        (render_heatmap_from_flatZ
            (dotVM (padTrim (seq.getD (frame_idx % seq.length) []) K.length) K)
            wFinal hFinal gW gH).map
          (fun img => (img, compute_cop (seq.getD (frame_idx % seq.length) []) coords))) := by
  have h1 : (frame_idx + seq.length) % seq.length = frame_idx % seq.length :=
    Nat.add_mod_right _ _
  have h2 : frame_idx % seq.length % seq.length = frame_idx % seq.length :=
    Nat.mod_mod_of_dvd _ dvd_rfl
  refine ⟨?_, ?_, ?_⟩
  · unfold render_side
    rw [h1]
  · unfold render_side
    rw [h2]
  · intro hK
    have hguard : ¬(seq.length = 0 ∨ K.length = 0) := by
      simp [List.length_eq_zero, hs, hK]
    unfold render_side
    rw [if_neg hguard]

/-- Witness for C10: with a two-frame sequence, frame 3 + 2 renders the
same as frame 3. -/
theorem render_side_cyclic_witness :
    render_side (α := ℚ) 2 2 1 1 [[1], [2]] [[1]] [] (3 + 2) =
      render_side (α := ℚ) 2 2 1 1 [[1], [2]] [[1]] [] 3 :=
  (render_side_cyclic 2 2 1 1 [[1], [2]] [[1]] [] 3 (by decide)).1

/-! ### Theorems about the kernel bank -/

/-- Helper: length of a `flatMap` whose pieces all have length `m`. -/
lemma flatMap_const_length {β : Type} (L : List ℕ) (f : ℕ → List β) (m : ℕ)
    (h : ∀ i ∈ L, (f i).length = m) : (L.flatMap f).length = L.length * m := by
  induction L with
  | nil => simp
  | cons a t ih =>
    rw [List.flatMap_cons, List.length_append, h a (by simp),
      ih (fun i hi => h i (by simp [hi])), List.length_cons]
    ring

/-- The grid of `precompute_kernels` has `gW * gH` points. -/
lemma gridPoints_length (gW gH : ℕ) (wFinal hFinal : ℝ) :
    (gridPoints gW gH wFinal hFinal).length = gW * gH := by
  unfold gridPoints
  have h : ∀ i ∈ List.range gH, ((List.range gW).map (fun (j : ℕ) =>
      (((j : ℝ) + 1 / 2) / (gW : ℝ) * wFinal, ((i : ℝ) + 1 / 2) / (gH : ℝ) * hFinal))).length
        = gW := by
    intro i _
    rw [List.length_map, List.length_range]
  rw [flatMap_const_length _ _ gW h, List.length_range, Nat.mul_comm]

/-- Evaluating `precompute_kernels` at radius `-1` (a radius the spec says
must be rejected at construction time): the code silently squares the
radius and returns a well-formed one-sensor, one-cell kernel matrix. -/
theorem kernel_built_at_nonpositive_radius :
    precompute_kernels [((0 : ℝ), 0)] 1 1 1 1 (-1) 1 = [[Real.exp (-(1 / 2))]] := by
  unfold precompute_kernels gridPoints
  simp only [List.range_succ, List.range_zero, List.nil_append, List.flatMap_cons,
    List.flatMap_nil, List.map_cons, List.map_nil, List.append_nil]
  exact congrArg (fun t => [[Real.exp t]]) (by norm_num)

/-- Claim C7: for radius `> 0` and smoothness `≥ 0`, the kernel bank has
one row per sensor (none for an empty layout), `gW * gH` columns per row,
and every entry lies in `[0, 1]`. -/
theorem precompute_kernels_shape_bounds (coords : List (ℝ × ℝ)) (gW gH : ℕ)
    (wFinal hFinal radius smooth : ℝ) (hr : 0 < radius) (hs : 0 ≤ smooth) :
    (precompute_kernels coords gW gH wFinal hFinal radius smooth).length = coords.length ∧
    (∀ row ∈ precompute_kernels coords gW gH wFinal hFinal radius smooth,
      row.length = gW * gH) ∧
    (∀ row ∈ precompute_kernels coords gW gH wFinal hFinal radius smooth,
      ∀ x ∈ row, 0 ≤ x ∧ x ≤ 1) := by
  refine ⟨by rw [precompute_kernels, List.length_map], ?_, ?_⟩
  · intro row hrow
    rw [precompute_kernels, List.mem_map] at hrow
    obtain ⟨c, hc, rfl⟩ := hrow
    rw [List.length_map, gridPoints_length]
  · intro row hrow x hx
    rw [precompute_kernels, List.mem_map] at hrow
    obtain ⟨c, hc, rfl⟩ := hrow
    rw [List.mem_map] at hx
    obtain ⟨g, hg, rfl⟩ := hx
    have hr2 : (0 : ℝ) < radius * radius := mul_pos hr hr
    have hd : 0 ≤ (g.1 - c.1) * (g.1 - c.1) + (g.2 - c.2) * (g.2 - c.2) :=
      add_nonneg (mul_self_nonneg _) (mul_self_nonneg _)
    have harg : 0 ≤ smooth *
        (((g.1 - c.1) * (g.1 - c.1) + (g.2 - c.2) * (g.2 - c.2)) / (radius * radius)) :=
      mul_nonneg hs (div_nonneg hd hr2.le)
    refine ⟨(Real.exp_pos _).le, ?_⟩
    rw [Real.exp_le_one_iff]
    linarith

/-- Witness for C7 at a one-sensor layout on a 1×1 grid with radius 1 and
smoothness 1. -/
theorem precompute_kernels_shape_bounds_witness :
    (precompute_kernels [((0 : ℝ), 0)] 1 1 1 1 1 1).length = 1 ∧
    (∀ row ∈ precompute_kernels [((0 : ℝ), 0)] 1 1 1 1 1 1, row.length = 1 * 1) ∧
    (∀ row ∈ precompute_kernels [((0 : ℝ), 0)] 1 1 1 1 1 1, ∀ x ∈ row, 0 ≤ x ∧ x ≤ 1) :=
  precompute_kernels_shape_bounds [((0 : ℝ), 0)] 1 1 1 1 1 1 one_pos zero_le_one

/-! ### Theorems about the center of pressure -/

/-- Helper: a list sum as a sum over positions with default `0`. -/
lemma list_sum_eq_sum_getD {α : Type} [AddCommMonoid α] (l : List α) :
    l.sum = ∑ i in Finset.range l.length, l.getD i 0 := by
  induction l with
  | nil => simp
  | cons a t ih =>
    rw [List.sum_cons, List.length_cons, Finset.sum_range_succ']
    simp only [List.getD_cons_succ, List.getD_cons_zero]
    rw [← ih]
    exact add_comm _ _

/-- Helper: `padTrim` always produces the requested length. -/
lemma padTrim_length {α : Type} [Zero α] (p : List α) (n : ℕ) :
    (padTrim p n).length = n := by
  unfold padTrim
  split_ifs with h1
  · simp only [List.length_append, List.length_replicate]
    omega
  · simp only [List.length_take]
    omega

/-- Helper: every position of a zero-replicate reads `0`. -/
lemma getD_replicate_zero {α : Type} [Zero α] (k j : ℕ) :
    (List.replicate k (0 : α)).getD j 0 = 0 := by
  induction k generalizing j with
  | zero => simp
  | succ m ih =>
    cases j with
    | zero => simp [List.replicate_succ]
    | succ jj => simp [List.replicate_succ, List.getD_cons_succ, ih]

/-- Helper: within the requested length, `padTrim` reads the original list
(with `0` past its end). -/
lemma padTrim_getD {α : Type} [Zero α] (p : List α) (n i : ℕ) (h : i < n) :
    (padTrim p n).getD i 0 = p.getD i 0 := by
  unfold padTrim
  split_ifs with h1
  · by_cases h2 : i < p.length
    · rw [List.getD_append _ _ _ _ h2]
    · push_neg at h2
      rw [List.getD_append_right _ _ _ _ h2, getD_replicate_zero,
        List.getD_eq_default _ _ h2]
  · rw [List.getD_eq_getElem?_getD, List.getElem?_take, if_pos h,
      ← List.getD_eq_getElem?_getD]

/-- Helper: a `zipWith` sum as a sum over positions. -/
lemma zipWith_sum_eq {α β γ : Type} [AddCommMonoid α] (g : β → γ → α) (d₁ : β) (d₂ : γ) :
    ∀ (l₁ : List β) (l₂ : List γ), l₁.length = l₂.length →
      (List.zipWith g l₁ l₂).sum =
        ∑ i in Finset.range l₁.length, g (l₁.getD i d₁) (l₂.getD i d₂) := by
  intro l₁
  induction l₁ with
  | nil => intro l₂ _; simp
  | cons a t ih =>
    intro l₂ h
    cases l₂ with
    | nil => simp at h
    | cons b u =>
      have h' : t.length = u.length := by simpa using h
      rw [List.zipWith_cons_cons, List.sum_cons, List.length_cons, Finset.sum_range_succ']
      simp only [List.getD_cons_succ, List.getD_cons_zero]
      rw [ih u h']
      exact add_comm _ _

/-- Claim C9: `compute_cop` returns the sentinel `(0, 0)` for an empty
layout (any pressure frame) and whenever the total of the aligned
(pad/trim) pressures is non-positive; otherwise it returns the rounded
pressure-weighted average of the sensor coordinates. -/
theorem compute_cop_spec {α : Type} [LinearOrderedField α] [FloorRing α]
    (pressures : List α) (coords : List (α × α)) :
    (coords = [] → compute_cop pressures coords = (0, 0)) ∧
    (coords ≠ [] →
      (((∑ i in Finset.range coords.length, pressures.getD i 0) ≤ 0 →
          compute_cop pressures coords = (0, 0)) ∧
        (0 < (∑ i in Finset.range coords.length, pressures.getD i 0) →
          compute_cop pressures coords =
            (pyRound ((∑ i in Finset.range coords.length,
                  (coords.getD i (0, 0)).1 * pressures.getD i 0) /
                (∑ i in Finset.range coords.length, pressures.getD i 0)),
             pyRound ((∑ i in Finset.range coords.length,
                  (coords.getD i (0, 0)).2 * pressures.getD i 0) /
                (∑ i in Finset.range coords.length, pressures.getD i 0)))))) := by
  have hps_len : (padTrim pressures coords.length).length = coords.length :=
    padTrim_length _ _
  have hsum : (padTrim pressures coords.length).sum
      = ∑ i in Finset.range coords.length, pressures.getD i 0 := by
    rw [list_sum_eq_sum_getD, hps_len]
    exact Finset.sum_congr rfl
      (fun i hi => padTrim_getD _ _ _ (Finset.mem_range.mp hi))
  have hzip1 : (List.zipWith (fun (c : α × α) (p : α) => c.1 * p) coords
        (padTrim pressures coords.length)).sum
      = ∑ i in Finset.range coords.length,
          (coords.getD i (0, 0)).1 * pressures.getD i 0 := by
    rw [zipWith_sum_eq (fun (c : α × α) (p : α) => c.1 * p) (0, 0) 0 coords _ hps_len.symm]
    exact Finset.sum_congr rfl
      (fun i hi => by rw [padTrim_getD _ _ _ (Finset.mem_range.mp hi)])
  have hzip2 : (List.zipWith (fun (c : α × α) (p : α) => c.2 * p) coords
        (padTrim pressures coords.length)).sum
      = ∑ i in Finset.range coords.length,
          (coords.getD i (0, 0)).2 * pressures.getD i 0 := by
    rw [zipWith_sum_eq (fun (c : α × α) (p : α) => c.2 * p) (0, 0) 0 coords _ hps_len.symm]
    exact Finset.sum_congr rfl
      (fun i hi => by rw [padTrim_getD _ _ _ (Finset.mem_range.mp hi)])
  constructor
  · intro hc
    subst hc
    rfl
  · intro hc
    have hlen : ¬(coords.length = 0) := fun h => hc (List.length_eq_zero.mp h)
    constructor
    · intro hle
      unfold compute_cop
      rw [if_neg hlen]
      dsimp only
      rw [hsum, if_pos hle]
    · intro hpos
      unfold compute_cop
      rw [if_neg hlen]
      dsimp only
      rw [hsum, hzip1, hzip2, if_neg (not_le.mpr hpos)]

/-- Witness for C9: layout `[(0,0), (4,0)]` with pressures `[3, 1]` gives
total 4 and weighted average `(1, 0)`. -/
theorem compute_cop_spec_witness :
    compute_cop [(3 : ℚ), 1] [((0 : ℚ), 0), (4, 0)] = (1, 0) := by
  have h := ((compute_cop_spec [(3 : ℚ), 1] [((0 : ℚ), 0), (4, 0)]).2 (by decide)).2
    (by norm_num [Finset.sum_range_succ, List.getD_cons_zero, List.getD_cons_succ])
  rw [h]
  norm_num [Finset.sum_range_succ, List.getD_cons_zero, List.getD_cons_succ, pyRound]

end GaitScope
